import Mathlib

/-!
Verification of the WSL repository's edit-application engine and validator CLI.

The agent binary (src/agent/src/main.rs) exposes an `edit_wsl` tool whose
handler `handle_edit_wsl` applies an ordered batch of search/replace edits to
the stored file, normalizes the trailing newline, runs the external
`wsl_validator::validate` as a commit gate, and writes only on success.

The validator binary (src/validator/src/main.rs) prints a report for a
validation result and exits 0 exactly when the result is valid.

Text is modelled as `List Char`; the stored file as `Option (List Char)`
(`none` = the file does not exist).  The external validator crate is not part
of the sources, so `handle_edit_wsl` is parameterized over the validation
function; its result type is modelled from the spec.
-/

/-- One element of the `edits` array of an `edit_wsl` request.  Both fields are
optional because the JSON payload may omit them; `handle_edit_wsl` extracts
them with `edit.get("old_string").and_then(|v| v.as_str())`. -/
structure EditOp where
  old_string : Option (List Char)
  new_string : Option (List Char)
deriving DecidableEq, Repr

/-- The ways a single edit operation can fail inside the loop of
`handle_edit_wsl` (src/agent/src/main.rs lines 406-451); `i` is the 0-based
index of the failing edit, messages print `i + 1`. -/
inductive EditError where
  | missing_old (i : Nat)
  | missing_new (i : Nat)
  | empty_file_nonempty_old (i : Nat)
  | not_found (i : Nat)
  | ambiguous (i : Nat) (n : Nat)
deriving DecidableEq, Repr

/-- Non-overlapping occurrence counting for a non-empty pattern, mirroring
Rust's `str::matches(pat).count()`: scan left to right; at a match, skip the
matched span (`skip` counts characters still to be skipped after consuming the
head of a match). -/
def countAux (pat : List Char) : List Char → Nat → Nat
  | [], _ => 0
  | c :: rest, skip =>
    match skip with
    | k + 1 => countAux pat rest k
    | 0 =>
      if pat.isPrefixOf (c :: rest) then 1 + countAux pat rest (pat.length - 1)
      else countAux pat rest 0

/-- `content.matches(old_string).count()` from src/agent/src/main.rs line 429.
Rust's empty pattern matches at every character boundary, giving
`length + 1` occurrences. -/
def countMatches (pat s : List Char) : Nat :=
  if pat = [] then s.length + 1 else countAux pat s 0

/-- `content.replacen(old_string, new_string, 1)` from src/agent/src/main.rs
line 450: replace the leftmost occurrence of `pat` by `new`. -/
def replaceFirst (pat new : List Char) : List Char → List Char
  | [] => if pat = [] then new else []
  | c :: rest =>
    if pat.isPrefixOf (c :: rest) then new ++ List.drop pat.length (c :: rest)
    else c :: replaceFirst pat new rest

/-- The body of the edit loop of `handle_edit_wsl` for the edit at 0-based
index `i` against the evolving text `content` (src/agent/src/main.rs lines
406-451): extract both fields, bootstrap when the evolving text is empty,
otherwise require a unique match and replace it. -/
def applyOne (i : Nat) (content : List Char) (e : EditOp) :
    Except EditError (List Char) :=
  match e.old_string with
  | none => .error (.missing_old i)
  | some old =>
    match e.new_string with
    | none => .error (.missing_new i)
    | some new =>
      if content = [] then
        if old = [] then .ok new else .error (.empty_file_nonempty_old i)
      else
        match countMatches old content with
        | 0 => .error (.not_found i)
        | 1 => .ok (replaceFirst old new content)
        | n + 2 => .error (.ambiguous i (n + 2))

/-- The whole edit loop of `handle_edit_wsl`: apply the edits in order to the
evolving text, stopping at the first failure; `i` is the 0-based index of the
first edit of the remaining list. -/
def applyEditsFrom (i : Nat) (content : List Char) :
    List EditOp → Except EditError (List Char)
  | [] => .ok content
  | e :: rest =>
    match applyOne i content e with
    | .error err => .error err
    | .ok c => applyEditsFrom (i + 1) c rest

/-- The error strings `handle_edit_wsl` returns for a failing edit
(src/agent/src/main.rs lines 409, 413, 419-422, 432-436, 440-446). -/
def editErrorMsg : EditError → String
  | .missing_old i => "Edit " ++ toString (i + 1) ++ ": missing \x27old_string\x27"
  | .missing_new i => "Edit " ++ toString (i + 1) ++ ": missing \x27new_string\x27"
  | .empty_file_nonempty_old i =>
      "Edit " ++ toString (i + 1) ++
        ": file is empty, old_string must be empty to create new content"
  | .not_found i =>
      "Edit " ++ toString (i + 1) ++
        ": old_string not found in file. Make sure the string matches exactly, including whitespace and indentation."
  | .ambiguous i n =>
      "Edit " ++ toString (i + 1) ++ ": old_string found " ++ toString n ++
        " times (must be unique). Include more surrounding context to make the match unique."

/-- src/agent/src/main.rs lines 453-456: append a trailing newline when the
text is non-empty and does not already end with one. -/
def ensureNewline (c : List Char) : List Char :=
  if c ≠ [] ∧ c.getLast? ≠ some '\n' then c ++ ['\n'] else c

/-- Modelled from the spec: the external `wsl_validator` crate (not under
src/) returns a result carrying ordered lists of error and warning
diagnostics (spec section 4.4). -/
structure ValidationResult where
  errors : List String
  warnings : List String
deriving DecidableEq, Repr

/-- Modelled from the spec: `is_valid()` is false exactly when a blocking
error is present (spec section 4.4, "any one makes is_valid() false"). -/
def ValidationResult.is_valid (r : ValidationResult) : Bool :=
  r.errors.isEmpty

/-- Modelled from the spec: `has_warnings()` reports the presence of
non-blocking warnings. -/
def ValidationResult.has_warnings (r : ValidationResult) : Bool :=
  !r.warnings.isEmpty

/-- src/agent/src/main.rs lines 461-467: the rejection message when the
candidate text fails validation. -/
def validationFailedMsg (r : ValidationResult) : String :=
  "Validation failed - file not modified:\n" ++ String.intercalate "\n" r.errors

/-- src/agent/src/main.rs lines 474-487: the success message, reporting the
edit count and any warnings. -/
def successMsg (n : Nat) (r : ValidationResult) : String :=
  let base := "Successfully applied " ++ toString n ++ " edit" ++
    (if n = 1 then "" else "s") ++ "."
  if r.has_warnings then
    base ++ " Warnings:\n" ++ String.intercalate "\n" r.warnings
  else
    base ++ " File validated."

/-- `handle_edit_wsl` (src/agent/src/main.rs lines 384-488) as a pure
function: `validate` is the external commit gate, `file` the stored file
(`none` = missing), `edits` the parsed `edits` array (`none` = the request has
no array).  Returns the status string handed back to the agent and the stored
file after the call. -/
def handle_edit_wsl (validate : List Char → ValidationResult)
    (file : Option (List Char)) (edits : Option (List EditOp)) :
    String × Option (List Char) :=
  match edits with
  | none => ("Error: \x27edits\x27 array is required", file)
  | some es =>
    if es = [] then ("Error: \x27edits\x27 array cannot be empty", file)
    else
      match applyEditsFrom 0 (file.getD []) es with
      | .error e => (editErrorMsg e, file)
      | .ok c =>
        let c2 := ensureNewline c
        let v := validate c2
        if v.is_valid then (successMsg es.length v, some c2)
        else (validationFailedMsg v, file)

/-- src/validator/src/main.rs lines 80-102: the report lines printed for a
validation result, together with the numeric exit code. -/
def cli_report (r : ValidationResult) : List String × Nat :=
  if r.is_valid then
    if r.has_warnings then
      (("Valid Worldview document with " ++ toString r.warnings.length ++
          " warning(s):") :: r.warnings.map (fun w => "  " ++ w), 0)
    else
      (["Valid Worldview document"], 0)
  else
    ((("Invalid Worldview document (" ++ toString r.errors.length ++
          " error(s)):") :: r.errors.map (fun e => "  " ++ e))
      ++ (if r.has_warnings then
            ("Additionally, " ++ toString r.warnings.length ++ " warning(s):")
              :: r.warnings.map (fun w => "  " ++ w)
          else []), 1)

deriving instance DecidableEq for Except

/-- C10: an `edit_wsl` request whose `edits` array is present but empty is
rejected with the empty-array error, and the stored file is unchanged; the
result does not depend on the stored file or on the validator, so no file
content is consulted, no validation runs and no write occurs. -/
theorem empty_batch_rejected (validate : List Char → ValidationResult)
    (file : Option (List Char)) :
    handle_edit_wsl validate file (some []) =
      ("Error: \x27edits\x27 array cannot be empty", file) := rfl

/-- C9: occurrence counting is non-overlapping: `"aa"` occurs twice in
`"aaa"` only with overlap, the count used by the uniqueness check is 1, the
edit is accepted as unique, and the leftmost occurrence is the one replaced
(the result is `"ba"`, not `"ab"`). -/
theorem overlap_counting_nonoverlapping :
    countMatches ("aa".toList) ("aaa".toList) = 1 ∧
    applyEditsFrom 0 ("aaa".toList)
      [⟨some ("aa".toList), some ("b".toList)⟩] = .ok ("ba".toList) := by
  decide

/-- C8: determinism of edit application — two runs of `handle_edit_wsl` on
the same initial file content and the same ordered edits return the identical
status string and the identical stored file: the transformation is a pure
function of the text buffer and the request. -/
theorem edit_wsl_deterministic (validate : List Char → ValidationResult)
    (f1 f2 : Option (List Char)) (p1 p2 : Option (List EditOp))
    (hf : f1 = f2) (hp : p1 = p2) :
    (handle_edit_wsl validate f1 p1).1 = (handle_edit_wsl validate f2 p2).1 ∧
    (handle_edit_wsl validate f1 p1).2 = (handle_edit_wsl validate f2 p2).2 := by
  subst hf; subst hp; exact ⟨rfl, rfl⟩

theorem edit_wsl_deterministic_witness :
    (handle_edit_wsl (fun _ => ⟨[], []⟩) (some ("x".toList)) none).1 =
      (handle_edit_wsl (fun _ => ⟨[], []⟩) (some ("x".toList)) none).1 ∧
    (handle_edit_wsl (fun _ => ⟨[], []⟩) (some ("x".toList)) none).2 =
      (handle_edit_wsl (fun _ => ⟨[], []⟩) (some ("x".toList)) none).2 :=
  edit_wsl_deterministic (fun _ => ⟨[], []⟩) (some ("x".toList))
    (some ("x".toList)) none none rfl rfl

/-- C3 counterexample: an empty `old_string` is accepted as the SECOND
operation of a batch applied against the non-empty document `"x"` — the first
operation deletes all content, after which the empty `old_string` bootstraps
the text to `"T"` and the batch succeeds.  This contradicts "legal only as
the very first operation of a batch applied against an empty document". -/
theorem empty_old_second_position_accepted :
    "x".toList ≠ [] ∧
    applyEditsFrom 0 ("x".toList)
      [⟨some ("x".toList), some []⟩, ⟨some [], some ("T".toList)⟩]
      = .ok ("T".toList) := by
  decide

/-- C3 amended: an empty `old_string` is legal exactly when the evolving text
is empty at the moment the operation is applied — in particular as the first
operation against an empty document, but also after earlier operations have
deleted all content — and it sets the candidate text to `new_string`; against
a non-empty evolving text an empty `old_string` is rejected as an
ambiguous-match error whose count is one occurrence per character boundary. -/
theorem empty_old_bootstrap (i : Nat) (content new : List Char) (op : EditOp)
    (hold : op.old_string = some []) (hnew : op.new_string = some new) :
    (content = [] → applyOne i content op = .ok new) ∧
    (content ≠ [] →
      applyOne i content op = .error (.ambiguous i (content.length + 1))) := by
  constructor
  · intro hc; subst hc; simp [applyOne, hold, hnew]
  · intro hc
    cases content with
    | nil => exact absurd rfl hc
    | cons c rest => simp [applyOne, hold, hnew, countMatches]

theorem empty_old_bootstrap_witness :
    (([] : List Char) = [] →
      applyOne 0 [] ⟨some [], some ("T".toList)⟩ = .ok ("T".toList)) ∧
    (([] : List Char) ≠ [] →
      applyOne 0 [] ⟨some [], some ("T".toList)⟩ =
        .error (.ambiguous 0 (List.length ([] : List Char) + 1))) :=
  empty_old_bootstrap 0 [] ("T".toList) ⟨some [], some ("T".toList)⟩ rfl rfl

/-- C4 counterexample: a candidate that already ends in two newlines is left
with both by the trailing-newline normalization (the code only appends a
newline when one is missing, it never collapses extras), so the persisted
file ends with two line terminators, not exactly one: the batch below
bootstraps the file to `"a\n\n"` and that exact text is persisted. -/
theorem trailing_newline_not_collapsed :
    ensureNewline ("a\n\n".toList) = "a\n\n".toList ∧
    ("a\n\n".toList).getLast? = some '\n' ∧
    (("a\n\n".toList).dropLast).getLast? = some '\n' ∧
    (handle_edit_wsl (fun _ => ⟨[], []⟩) none
        (some [⟨some [], some ("a\n\n".toList)⟩])).2
      = some ("a\n\n".toList) := by
  decide

/-- C4 amended: after the patch operations are applied, the candidate is
normalized so that it ends with AT LEAST one trailing line terminator — a
newline is appended exactly when the non-empty candidate does not already end
with one, and a candidate already ending in one or more newlines is left
unchanged — while an empty candidate is left empty. -/
theorem ensure_trailing_newline (c : List Char) :
    (c = [] → ensureNewline c = []) ∧
    (c ≠ [] →
      (ensureNewline c).getLast? = some '\n' ∧
      (c.getLast? = some '\n' → ensureNewline c = c) ∧
      (c.getLast? ≠ some '\n' → ensureNewline c = c ++ ['\n'])) := by
  constructor
  · intro h; subst h; rfl
  · intro hc
    by_cases hl : c.getLast? = some '\n'
    · have he : ensureNewline c = c := by simp [ensureNewline, hl]
      exact ⟨by rw [he]; exact hl, fun _ => he, fun h => absurd hl h⟩
    · have he : ensureNewline c = c ++ ['\n'] := by simp [ensureNewline, hc, hl]
      refine ⟨?_, fun h => absurd h hl, fun _ => he⟩
      rw [he]
      exact List.getLast?_concat _

theorem ensure_trailing_newline_witness :
    ("a".toList = [] → ensureNewline ("a".toList) = []) ∧
    ("a".toList ≠ [] →
      (ensureNewline ("a".toList)).getLast? = some '\n' ∧
      (("a".toList).getLast? = some '\n' → ensureNewline ("a".toList) = "a".toList) ∧
      (("a".toList).getLast? ≠ some '\n' →
        ensureNewline ("a".toList) = "a".toList ++ ['\n'])) :=
  ensure_trailing_newline ("a".toList)

/-- C1: atomicity of edit application — whenever the batch cannot reach a
candidate that passes validation (because some edit operation fails with a
missing field, a not-found `old_string` or an ambiguous match, or because the
final candidate text is rejected by the validator), the stored file after the
call is byte-for-byte identical to the stored file before the call, and the
returned status is exactly the corresponding error message. -/
theorem edit_wsl_atomicity (validate : List Char → ValidationResult)
    (file : Option (List Char)) (es : List EditOp)
    (h : ∀ c, applyEditsFrom 0 (file.getD []) es = Except.ok c →
      (validate (ensureNewline c)).is_valid = false) :
    (handle_edit_wsl validate file (some es)).2 = file ∧
    (es ≠ [] → (handle_edit_wsl validate file (some es)).1 =
      (match applyEditsFrom 0 (file.getD []) es with
       | .error e => editErrorMsg e
       | .ok c => validationFailedMsg (validate (ensureNewline c)))) := by
  by_cases hes : es = []
  · subst hes
    exact ⟨rfl, fun hne => absurd rfl hne⟩
  · cases happ : applyEditsFrom 0 (file.getD []) es with
    | error e =>
      exact ⟨by simp [handle_edit_wsl, hes, happ],
        fun _ => by simp [handle_edit_wsl, hes, happ]⟩
    | ok c =>
      have hv := h c happ
      exact ⟨by simp [handle_edit_wsl, hes, happ, hv],
        fun _ => by simp [handle_edit_wsl, hes, happ, hv]⟩

theorem edit_wsl_atomicity_witness :
    (handle_edit_wsl (fun _ => ⟨["E"], []⟩) (some ("x".toList))
        (some [⟨some ("y".toList), some ("z".toList)⟩])).2
      = some ("x".toList) :=
  (edit_wsl_atomicity (fun _ => ⟨["E"], []⟩) (some ("x".toList))
    [⟨some ("y".toList), some ("z".toList)⟩]
    (fun _ hc => Except.noConfusion hc)).1

/-- C5: commit on success with non-blocking warnings — when the edit loop
produces a candidate and the normalized candidate passes validation, the
normalized candidate is persisted as the new stored file and the status
reports success together with any warnings; nothing about the warnings can
prevent the write. -/
theorem edit_wsl_commit (validate : List Char → ValidationResult)
    (file : Option (List Char)) (es : List EditOp) (c : List Char)
    (hne : es ≠ [])
    (happ : applyEditsFrom 0 (file.getD []) es = Except.ok c)
    (hval : (validate (ensureNewline c)).is_valid = true) :
    handle_edit_wsl validate file (some es) =
      (successMsg es.length (validate (ensureNewline c)),
        some (ensureNewline c)) := by
  simp [handle_edit_wsl, hne, happ, hval]

theorem edit_wsl_commit_witness :
    handle_edit_wsl (fun _ => ⟨[], ["W1"]⟩) none
        (some [⟨some [], some ("T\n".toList)⟩])
      = ("Successfully applied 1 edit. Warnings:\nW1", some ("T\n".toList)) :=
  edit_wsl_commit (fun _ => ⟨[], ["W1"]⟩) none
    [⟨some [], some ("T\n".toList)⟩] ("T\n".toList)
    (by decide) (by decide) (by decide)

/-- When a non-empty pattern is counted at least once, the text splits at the
leftmost occurrence and `replaceFirst` rewrites exactly that occurrence. -/
theorem replaceFirst_splits (pat new : List Char) :
    ∀ l : List Char, 1 ≤ countAux pat l 0 →
      ∃ pre suf, l = pre ++ pat ++ suf ∧
        replaceFirst pat new l = pre ++ new ++ suf := by
  intro l
  induction l with
  | nil => intro h; simp [countAux] at h
  | cons c rest ih =>
    intro h
    by_cases hpre : pat.isPrefixOf (c :: rest)
    · obtain ⟨suf, hsuf⟩ := (List.isPrefixOf_iff_prefix).1 hpre
      refine ⟨[], suf, by simpa using hsuf.symm, ?_⟩
      have hr : replaceFirst pat new (c :: rest)
          = new ++ List.drop pat.length (c :: rest) := by
        simp [replaceFirst, hpre]
      rw [hr, ← hsuf, List.drop_left]
      simp
    · have h2 : 1 ≤ countAux pat rest 0 := by
        simpa [countAux, hpre] using h
      obtain ⟨pre, suf, h3, h4⟩ := ih h2
      refine ⟨c :: pre, suf, by simp [h3], ?_⟩
      simp [replaceFirst, hpre, h4]

/-- C2 counterexample: a non-empty `old_string` applied when the evolving
text has become empty has zero occurrences at the moment it is applied, yet
the code rejects it with the file-is-empty error, not the claimed not-found
error: the batch `[{"x"→""}, {"y"→"z"}]` on the file `"x"` empties the text at
edit 1, and edit 2 fails with `empty_file_nonempty_old`, a different error
from `not_found`. -/
theorem nonempty_old_on_empty_text_not_notfound :
    applyEditsFrom 0 ("x".toList)
      [⟨some ("x".toList), some []⟩, ⟨some ("y".toList), some ("z".toList)⟩]
      = .error (.empty_file_nonempty_old 1) ∧
    countMatches ("y".toList) [] = 0 ∧
    (Except.error (EditError.empty_file_nonempty_old 1)
        : Except EditError (List Char))
      ≠ .error (.not_found 1) := by
  decide

/-- C2 amended: the batch is applied one operation at a time, each operation
seeing the text produced by the previous one, and uniqueness is judged
against the evolving text.  Against a NON-EMPTY evolving text, a non-empty
`old_string` with zero occurrences is a not-found error; exactly one
(non-overlapping) occurrence is accepted and that occurrence is replaced by
`new_string`; two or more occurrences are an ambiguous-match error carrying
the occurrence count, which the returned message names.  Against an EMPTY
evolving text, a non-empty `old_string` is rejected with the file-is-empty
error before any occurrence counting. -/
theorem patch_uniqueness (i : Nat) (content old new : List Char) (op : EditOp)
    (hold : op.old_string = some old) (hnew : op.new_string = some new)
    (ho : old ≠ []) :
    (content ≠ [] →
      (countMatches old content = 0 →
        applyOne i content op = .error (.not_found i)) ∧
      (countMatches old content = 1 →
        applyOne i content op = .ok (replaceFirst old new content) ∧
        ∃ pre suf, content = pre ++ old ++ suf ∧
          replaceFirst old new content = pre ++ new ++ suf) ∧
      (∀ n, 2 ≤ n → countMatches old content = n →
        applyOne i content op = .error (.ambiguous i n) ∧
        editErrorMsg (.ambiguous i n) =
          "Edit " ++ toString (i + 1) ++ ": old_string found " ++ toString n ++
            " times (must be unique). Include more surrounding context to make the match unique.")) ∧
    (content = [] →
      applyOne i content op = .error (.empty_file_nonempty_old i)) ∧
    (∀ ops, applyEditsFrom i content (op :: ops) =
      (match applyOne i content op with
       | .error e => .error e
       | .ok c => applyEditsFrom (i + 1) c ops)) := by
  refine ⟨fun hc => ⟨?_, ?_, ?_⟩, fun hc => ?_, fun ops => rfl⟩
  · intro h0; simp [applyOne, hold, hnew, hc, h0]
  · intro h1
    refine ⟨by simp [applyOne, hold, hnew, hc, h1], ?_⟩
    refine replaceFirst_splits old new content ?_
    rw [show countAux old content 0 = countMatches old content by
      simp [countMatches, ho], h1]
  · intro n hn he
    obtain ⟨k, rfl⟩ : ∃ k, n = k + 2 := ⟨n - 2, by omega⟩
    exact ⟨by simp [applyOne, hold, hnew, hc, he], rfl⟩
  · subst hc
    simp [applyOne, hold, hnew, ho]

theorem patch_uniqueness_witness :
    (applyOne 0 ("ab".toList) ⟨some ("a".toList), some ("X".toList)⟩
      = .ok (replaceFirst ("a".toList) ("X".toList) ("ab".toList)) ∧
    ∃ pre suf, "ab".toList = pre ++ "a".toList ++ suf ∧
      replaceFirst ("a".toList) ("X".toList) ("ab".toList)
        = pre ++ "X".toList ++ suf) ∧
    applyOne 1 [] ⟨some ("y".toList), some ("z".toList)⟩
      = .error (.empty_file_nonempty_old 1) :=
  ⟨((patch_uniqueness 0 ("ab".toList) ("a".toList) ("X".toList)
      ⟨some ("a".toList), some ("X".toList)⟩ rfl rfl
      (by decide)).1 (by decide)).2.1 (by decide),
    (patch_uniqueness 1 [] ("y".toList) ("z".toList)
      ⟨some ("y".toList), some ("z".toList)⟩ rfl rfl
      (by decide)).2.1 rfl⟩

/-- Modelled from the spec: a line-indexed edit request of the Edit Engine
(spec section 4.5); this mode is not present under src/ (the agent exposes
only the patch mode), so it is modelled from the spec's words. -/
inductive LineEdit where
  | replace (line : Nat) (text : String)
  | insert_after (line : Nat) (text : String)
  | delete (line : Nat)
  | append (text : String)
deriving DecidableEq, Repr

/-- Modelled from the spec: the out-of-range error "naming the valid range"
for a document of `n` lines (spec section 4.5). -/
def outOfRangeMsg (n : Nat) : String :=
  "line out of range (valid: 1-" ++ toString n ++ ")"

/-- Modelled from the spec: application of one line-indexed operation to the
document's current line sequence (spec section 4.5): line numbers are 1-based;
a line number of 0 or greater than the line count is an out-of-range error;
`append` first adds a blank-line separator when the document is non-empty and
does not already end in a blank line. -/
def applyLineEdit (doc : List String) : LineEdit → Except String (List String)
  | .replace line text =>
    if line = 0 ∨ doc.length < line then .error (outOfRangeMsg doc.length)
    else .ok (doc.set (line - 1) text)
  | .insert_after line text =>
    if line = 0 ∨ doc.length < line then .error (outOfRangeMsg doc.length)
    else .ok (doc.take line ++ text :: doc.drop line)
  | .delete line =>
    if line = 0 ∨ doc.length < line then .error (outOfRangeMsg doc.length)
    else .ok (doc.take (line - 1) ++ doc.drop line)
  | .append text =>
    if doc ≠ [] ∧ doc.getLast? ≠ some "" then .ok (doc ++ ["", text])
    else .ok (doc ++ [text])

/-- C6: line-indexed edit mode — the engine accepts the four request shapes
replace(line, text), insert_after(line, text), delete(line) and append(text);
line numbers are 1-based against the document's current line sequence
(replace at line `n` rewrites element `n - 1`), a line number of 0 or greater
than the line count is an out-of-range error naming the valid range, and
`append` always succeeds. -/
theorem line_indexed_mode (doc : List String) (line : Nat) (text : String) :
    ((line = 0 ∨ doc.length < line) →
      applyLineEdit doc (.replace line text) = .error (outOfRangeMsg doc.length) ∧
      applyLineEdit doc (.insert_after line text) = .error (outOfRangeMsg doc.length) ∧
      applyLineEdit doc (.delete line) = .error (outOfRangeMsg doc.length)) ∧
    (1 ≤ line → line ≤ doc.length →
      applyLineEdit doc (.replace line text) = .ok (doc.set (line - 1) text) ∧
      applyLineEdit doc (.insert_after line text)
        = .ok (doc.take line ++ text :: doc.drop line) ∧
      applyLineEdit doc (.delete line)
        = .ok (doc.take (line - 1) ++ doc.drop line)) ∧
    (∃ res, applyLineEdit doc (.append text) = .ok res) := by
  refine ⟨fun h => ?_, fun h1 h2 => ?_, ?_⟩
  · exact ⟨by simp [applyLineEdit, h], by simp [applyLineEdit, h],
      by simp [applyLineEdit, h]⟩
  · have h3 : ¬(line = 0 ∨ doc.length < line) := by omega
    exact ⟨by simp [applyLineEdit, h3], by simp [applyLineEdit, h3],
      by simp [applyLineEdit, h3]⟩
  · by_cases hd : doc ≠ [] ∧ doc.getLast? ≠ some ""
    · exact ⟨doc ++ ["", text], by simp [applyLineEdit, hd]⟩
    · exact ⟨doc ++ [text], by simp [applyLineEdit, hd]⟩

theorem line_indexed_mode_witness :
    applyLineEdit ["a"] (.replace 1 "z") = .ok ["z"] ∧
    applyLineEdit ["a"] (.insert_after 1 "z") = .ok ["a", "z"] ∧
    applyLineEdit ["a"] (.delete 1) = .ok [] :=
  (line_indexed_mode ["a"] 1 "z").2.1 (by decide) (by decide)

/-- C7: validator CLI contract — the exit code is 0 exactly when the result
is valid; when the result has no errors the first report line begins with
"Valid"; otherwise the first line is "Invalid Worldview document (N
error(s)):" carrying the error count, followed by one diagnostic per line in
the order the result lists them. -/
theorem validator_cli_contract (r : ValidationResult) :
    ((cli_report r).2 = 0 ↔ r.is_valid = true) ∧
    (r.is_valid = true → ∃ s t, (cli_report r).1 = ("Valid" ++ s) :: t) ∧
    (r.is_valid = false → ∃ t,
      (cli_report r).1 =
        ("Invalid Worldview document (" ++ toString r.errors.length ++
            " error(s)):") :: (r.errors.map (fun e => "  " ++ e) ++ t)) := by
  by_cases hv : r.is_valid = true
  · refine ⟨by by_cases hw : r.has_warnings = true <;> simp [cli_report, hv, hw],
      fun _ => ?_, fun hf => by simp [hv] at hf⟩
    by_cases hw : r.has_warnings = true
    · refine ⟨" Worldview document with " ++
        (toString r.warnings.length ++ " warning(s):"),
        r.warnings.map (fun w => "  " ++ w), ?_⟩
      simp only [cli_report, hv, hw, if_true]
      rw [← String.append_assoc, ← String.append_assoc]
      rfl
    · have hw2 : r.has_warnings = false := by
        rwa [Bool.not_eq_true] at hw
      exact ⟨" Worldview document", [], by simp [cli_report, hv, hw2]⟩
  · have hv2 : r.is_valid = false := by rwa [Bool.not_eq_true] at hv
    refine ⟨by simp [cli_report, hv2], fun ht => by simp [hv2] at ht, fun _ => ?_⟩
    by_cases hw : r.has_warnings = true
    · exact ⟨("Additionally, " ++ toString r.warnings.length ++ " warning(s):")
        :: r.warnings.map (fun w => "  " ++ w),
        by simp [cli_report, hv2, hw]⟩
    · have hw2 : r.has_warnings = false := by
        rwa [Bool.not_eq_true] at hw
      exact ⟨[], by simp [cli_report, hv2, hw2]⟩

theorem validator_cli_contract_witness :
    ((cli_report ⟨["boom"], []⟩).2 = 0 ↔
      (ValidationResult.mk ["boom"] []).is_valid = true) ∧
    ∃ t, (cli_report ⟨["boom"], []⟩).1 =
      ("Invalid Worldview document (" ++ toString (List.length ["boom"]) ++
          " error(s)):") :: (List.map (fun e => "  " ++ e) ["boom"] ++ t) :=
  ⟨(validator_cli_contract ⟨["boom"], []⟩).1,
    (validator_cli_contract ⟨["boom"], []⟩).2.2 (by decide)⟩
